import Mathlib

/-!
# Metrics demo server (`main.go`): embedding and verified properties

The program is a single `main` function that builds five plain handlers,
wraps them with the `promhttp` instrumentation middleware and registers
the results on an `http.ServeMux`.  The embedding follows the program
text: every handler, chain and `mux.Handle` call of `main.go` is a
definition of the same name.  The library functions the program calls
(`http.ServeMux`, `promhttp.InstrumentHandlerCounter`,
`promhttp.InstrumentHandlerDuration`, the metric vectors, `rand.Intn`,
`time.Sleep`) are embedded at the level of the `http.Handler` interface.

Modelling conventions:
* a response is what the handler chain hands to the `ResponseWriter`
  (status passed to `WriteHeader`, bytes passed to `Write`), with the two
  rules of `net/http` for the body: none for a status that allows no body,
  none in answer to a `HEAD` request;
* requests are served one after the other;
* the clock is a nanosecond counter that only `time.Sleep` advances;
* the random source is the sequence of raw values it yields;
* counter values are natural numbers without an upper limit, observed
  durations are rationals (seconds);
* the text encoder of the `/metrics` handler is a parameter `enc`.
-/

namespace MetricsDemo

/-! ## Metric instruments -/

/-- Label values of `http_requests_total`: `[]string{"code", "method"}`. -/
structure CounterLabels where
  code : String
  method : String
deriving DecidableEq

/-- Label values of the two duration instruments:
`[]string{"code", "handler", "method", "endpoint"}`. -/
structure DurationLabels where
  code : String
  handler : String
  method : String
  endpoint : String
deriving DecidableEq

/-- A counter vector: one counter per label combination seen so far. -/
abbrev CounterVec := List (CounterLabels × Nat)

/-- Current value of the counter for `l` (0 when the child does not exist). -/
def CounterVec.value (l : CounterLabels) : CounterVec → Nat
  | [] => 0
  | (k, v) :: rest => if k = l then v else CounterVec.value l rest

/-- The call `counter.With(l).Inc()`: get or create the child, add one. -/
def CounterVec.Inc (l : CounterLabels) : CounterVec → CounterVec
  | [] => [(l, 1)]
  | (k, v) :: rest => if k = l then (k, v + 1) :: rest else (k, v) :: CounterVec.Inc l rest

/-- Sum of the counter over all label combinations. -/
def CounterVec.total : CounterVec → Nat
  | [] => 0
  | (_, v) :: rest => v + CounterVec.total rest

/-- The bucket boundaries of `httpRequestDuration`:
`Buckets: []float64{0.05, 0.1, 0.2, 0.3, 0.4, 0.5, 0.75, 1, 2.5}`. -/
def Buckets : List ℚ := [0.05, 0.1, 0.2, 0.3, 0.4, 0.5, 0.75, 1, 2.5]

/-- One histogram child: per-bucket (non-cumulative) counts, the number of
observations and their sum. -/
structure histogram where
  upperBounds : List ℚ
  buckets : List Nat
  count : Nat
  sum : ℚ
deriving DecidableEq

/-- A fresh child of a histogram vector with the given boundaries. -/
def newHistogram (upperBounds : List ℚ) : histogram :=
  { upperBounds := upperBounds, buckets := List.replicate upperBounds.length 0, count := 0, sum := 0 }

/-- Index of the first boundary that is `>= v` (`sort.SearchFloat64s`);
the number of boundaries when there is none. -/
def findBucket (v : ℚ) : List ℚ → Nat
  | [] => 0
  | b :: rest => if v ≤ b then 0 else findBucket v rest + 1

/-- Add one to position `i` of a list of counts; nothing when `i` is past
the end (an observation above the last boundary only shows in `count`). -/
def incAt : Nat → List Nat → List Nat
  | _, [] => []
  | 0, c :: rest => (c + 1) :: rest
  | i + 1, c :: rest => c :: incAt i rest

/-- The method `histogram.Observe(v)`. -/
def histogram.Observe (v : ℚ) (h : histogram) : histogram :=
  { h with
    buckets := incAt (findBucket v h.upperBounds) h.buckets
    count := h.count + 1
    sum := h.sum + v }

/-- One bucket of the exposition: upper bound and cumulative count. -/
structure Bucket where
  UpperBound : ℚ
  CumulativeCount : Nat
deriving DecidableEq

/-- The loop of `histogram.Write`: one `Bucket` per boundary, carrying the
running sum of the per-bucket counts. -/
def writeBuckets (cumCount : Nat) : List ℚ → List Nat → List Bucket
  | [], _ => []
  | ub :: ubs, counts =>
    let cumCount := cumCount + counts.headD 0
    { UpperBound := ub, CumulativeCount := cumCount } :: writeBuckets cumCount ubs counts.tail

/-- The buckets `histogram.Write` reports for one child. -/
def histogram.Write (h : histogram) : List Bucket :=
  writeBuckets 0 h.upperBounds h.buckets

/-- A histogram vector: one child per label combination observed. -/
abbrev HistogramVec := List (DurationLabels × histogram)

/-- The call `vec.With(l).Observe(v)` on the histogram vector. -/
def HistogramVec.Observe (l : DurationLabels) (v : ℚ) : HistogramVec → HistogramVec
  | [] => [(l, (newHistogram Buckets).Observe v)]
  | (k, h) :: rest =>
    if k = l then (k, h.Observe v) :: rest else (k, h) :: HistogramVec.Observe l v rest

/-- Number of observations recorded in the whole vector. -/
def HistogramVec.observations : HistogramVec → Nat
  | [] => 0
  | (_, h) :: rest => h.count + HistogramVec.observations rest

/-- One summary child: number of observations and their sum (the streaming
quantile estimate is not part of the embedding). -/
structure summary where
  count : Nat
  sum : ℚ
deriving DecidableEq

/-- The method `summary.Observe(v)`. -/
def summary.Observe (v : ℚ) (s : summary) : summary :=
  { count := s.count + 1, sum := s.sum + v }

/-- A summary vector: one child per label combination observed. -/
abbrev SummaryVec := List (DurationLabels × summary)

/-- The call `vec.With(l).Observe(v)` on the summary vector. -/
def SummaryVec.Observe (l : DurationLabels) (v : ℚ) : SummaryVec → SummaryVec
  | [] => [(l, ({ count := 0, sum := 0 } : summary).Observe v)]
  | (k, s) :: rest =>
    if k = l then (k, s.Observe v) :: rest else (k, s) :: SummaryVec.Observe l v rest

/-- Number of observations recorded in the whole vector. -/
def SummaryVec.observations : SummaryVec → Nat
  | [] => 0
  | (_, s) :: rest => s.count + SummaryVec.observations rest

/-- The package-level instruments of `main.go` (lines 13-39). -/
structure Metrics where
  version : ℚ
  httpRequestsTotal : CounterVec
  httpRequestDuration : HistogramVec
  httpRequestSummaryDuration : SummaryVec
deriving DecidableEq

/-! ## Requests, response writers and the process state -/

/-- The part of `http.Request` the program and its middleware read. -/
structure Request where
  Method : String
  Host : String
  Path : String
  Header : List (String × String)
deriving DecidableEq

/-- The function `bodyAllowedForStatus` of `net/http`. -/
def bodyAllowedForStatus (status : Nat) : Bool :=
  !((100 ≤ status && status ≤ 199) || status == 204 || status == 304)

/-- A response writer is either the `response` of the connection or a
`responseWriterDelegator` that `promhttp` puts in front of another writer
to learn the status code.  `response` holds the method of the request it
answers, whether the header was written, the status and the body bytes
sent to the client. -/
inductive ResponseWriter where
  | response (reqMethod : String) (wroteHeader : Bool) (status : Nat) (body : String)
  | responseWriterDelegator (inner : ResponseWriter) (status : Nat) (wroteHeader : Bool)
deriving DecidableEq

/-- The method `WriteHeader(code)`.  On `response` a second call is
ignored; the delegator stores the code and passes the call on. -/
def ResponseWriter.WriteHeader (code : Nat) : ResponseWriter → ResponseWriter
  | .response reqMethod wroteHeader status body =>
    if wroteHeader then .response reqMethod wroteHeader status body
    else .response reqMethod true code body
  | .responseWriterDelegator inner _ _ =>
    .responseWriterDelegator (inner.WriteHeader code) code true

/-- The body of a `response` after bytes `b` were written with the header
status `status`: nothing is added when the status allows no body
(`bodyAllowedForStatus`) and nothing when the request method is `HEAD`
(the connection discards the body of the answer to a `HEAD` request). -/
def sendBody (reqMethod : String) (status : Nat) (body b : String) : String :=
  if bodyAllowedForStatus status && reqMethod != "HEAD" then body ++ b else body

/-- The two calls `w.WriteHeader(code); w.Write(b)` in sequence. -/
def ResponseWriter.WriteHeaderThenWrite (code : Nat) (b : String) :
    ResponseWriter → ResponseWriter
  | .response reqMethod wroteHeader status body =>
    let status := if wroteHeader then status else code
    .response reqMethod true status (sendBody reqMethod status body b)
  | .responseWriterDelegator inner _ _ =>
    .responseWriterDelegator (inner.WriteHeaderThenWrite code b) code true

/-- The method `Write(b)`.  Both kinds of writer first write the header
with `http.StatusOK` when none was written; the delegator then passes the
bytes on to the writer behind it (its header call and write call on the
inner writer are taken in one step, `WriteHeaderThenWrite`). -/
def ResponseWriter.Write (b : String) : ResponseWriter → ResponseWriter
  | .response reqMethod wroteHeader status body =>
    let status := if wroteHeader then status else 200
    .response reqMethod true status (sendBody reqMethod status body b)
  | .responseWriterDelegator inner status wroteHeader =>
    if wroteHeader then .responseWriterDelegator (inner.Write b) status true
    else .responseWriterDelegator (inner.WriteHeaderThenWrite 200 b) 200 true

/-- The function `newDelegator(w, nil)`. -/
def newDelegator (w : ResponseWriter) : ResponseWriter :=
  .responseWriterDelegator w 0 false

/-- The method `Status()` of the delegator: the stored code, 0 when the
handler never wrote a header. -/
def ResponseWriter.Status : ResponseWriter → Nat
  | .response _ _ status _ => status
  | .responseWriterDelegator _ status _ => status

/-- The writer a delegator was put in front of. -/
def ResponseWriter.underlying : ResponseWriter → ResponseWriter
  | .response reqMethod wroteHeader status body => .response reqMethod wroteHeader status body
  | .responseWriterDelegator inner _ _ => inner

/-- The status the client gets: the one written, `http.StatusOK` when the
handler returned without writing a header. -/
def ResponseWriter.finalStatus : ResponseWriter → Nat
  | .response _ wroteHeader status _ => if wroteHeader then status else 200
  | .responseWriterDelegator inner _ _ => inner.finalStatus

/-- The body bytes the client gets. -/
def ResponseWriter.finalBody : ResponseWriter → String
  | .response _ _ _ body => body
  | .responseWriterDelegator inner _ _ => inner.finalBody

/-- Process-wide mutable state: the instruments, the monotonic clock in
nanoseconds, and the global random source given as the sequence of raw
values it yields together with the position of the next one. -/
structure World where
  metrics : Metrics
  clock : Nat
  randSrc : Nat → Nat
  randIdx : Nat

/-- A `http.Handler`: `ServeHTTP(w, r)` acting on the writer and the
process state. -/
abbrev Handler := ResponseWriter → Request → World → ResponseWriter × World

/-- The constant `time.Millisecond`, in nanoseconds. -/
def Millisecond : Nat := 1000000

/-- The function `rand.Intn(n)`: the next raw value of the source reduced
modulo `n`. -/
def Intn (n : Nat) (s : World) : Nat × World :=
  (s.randSrc s.randIdx % n, { s with randIdx := s.randIdx + 1 })

/-- The function `time.Sleep(d)`. -/
def Sleep (d : Nat) (s : World) : World :=
  { s with clock := s.clock + d }

def StatusOK : Nat := 200
def StatusNotFound : Nat := 404
def StatusInternalServerError : Nat := 500
def StatusMovedPermanently : Nat := 301
def StatusBadRequest : Nat := 400

/-! ## The plain handlers (`main.go` lines 52-74) -/

def foundHandler : Handler := fun w _ s =>
  ((w.WriteHeader StatusOK).Write "Endpoint estável", s)

def fastRandomHandler : Handler := fun w _ s =>
  let (n, s) := Intn 500 s
  let s := Sleep (n * Millisecond) s
  ((w.WriteHeader StatusOK).Write "Endpoint com resposta aleatória (0-0.5s)", s)

def slowRandomHandler : Handler := fun w _ s =>
  let (n, s) := Intn 2000 s
  let s := Sleep (n * Millisecond) s
  ((w.WriteHeader StatusOK).Write "Endpoint com resposta aleatória (0-2s)", s)

def notfoundHandler : Handler := fun w _ s =>
  (w.WriteHeader StatusNotFound, s)

def internalErrorHandler : Handler := fun w _ s =>
  (w.WriteHeader StatusInternalServerError, s)

/-! ## The `promhttp` middleware -/

/-- The function `sanitizeCode` of `promhttp`: status 0 (nothing written)
counts as 200, codes 100..599 are printed in decimal. -/
def sanitizeCode (s : Nat) : String :=
  if s = 0 then "200"
  else if 100 ≤ s ∧ s ≤ 599 then Nat.repr s
  else "unknown"

/-- The function `sanitizeMethod` of `promhttp`, called without extra
methods: the standard methods are reported in lower case. -/
def sanitizeMethod (m : String) : String :=
  if m = "GET" ∨ m = "get" then "get"
  else if m = "PUT" ∨ m = "put" then "put"
  else if m = "HEAD" ∨ m = "head" then "head"
  else if m = "POST" ∨ m = "post" then "post"
  else if m = "DELETE" ∨ m = "delete" then "delete"
  else if m = "CONNECT" ∨ m = "connect" then "connect"
  else if m = "OPTIONS" ∨ m = "options" then "options"
  else if m = "NOTIFY" ∨ m = "notify" then "notify"
  else if m = "TRACE" ∨ m = "trace" then "trace"
  else if m = "PATCH" ∨ m = "patch" then "patch"
  else "unknown"

/-- The function `labels(code, method, reqMethod, status)` for an
instrument that has both the `code` and the `method` label. -/
def labels (reqMethod : String) (status : Nat) : CounterLabels :=
  { code := sanitizeCode status, method := sanitizeMethod reqMethod }

/-- An `ObserverVec` whose remaining labels are `code` and `method`: what
`MustCurryWith` returns for the two duration instruments. -/
abbrev ObserverVec := CounterLabels → ℚ → Metrics → Metrics

/-- The call `httpRequestDuration.MustCurryWith(prometheus.Labels{"handler": h, "endpoint": e})`. -/
def httpRequestDuration_MustCurryWith (handler endpoint : String) : ObserverVec :=
  fun l v m =>
    let l : DurationLabels :=
      { code := l.code, handler := handler, method := l.method, endpoint := endpoint }
    { m with httpRequestDuration := m.httpRequestDuration.Observe l v }

/-- The call `httpRequestSummaryDuration.MustCurryWith(prometheus.Labels{"handler": h, "endpoint": e})`. -/
def httpRequestSummaryDuration_MustCurryWith (handler endpoint : String) : ObserverVec :=
  fun l v m =>
    let l : DurationLabels :=
      { code := l.code, handler := handler, method := l.method, endpoint := endpoint }
    { m with httpRequestSummaryDuration := m.httpRequestSummaryDuration.Observe l v }

/-- The counter vector `httpRequestsTotal` as the middleware uses it:
`counter.With(l).Inc()`. -/
def httpRequestsTotal (l : CounterLabels) (m : Metrics) : Metrics :=
  { m with httpRequestsTotal := m.httpRequestsTotal.Inc l }

/-- The method `Duration.Seconds()`. -/
def Seconds (d : Nat) : ℚ := (d : ℚ) / 1000000000

/-- The function `promhttp.InstrumentHandlerCounter(counter, next)`: run
`next` behind a delegator, then add one to the child labelled with the
delegator's status and the request method. -/
def InstrumentHandlerCounter (counter : CounterLabels → Metrics → Metrics) (next : Handler) :
    Handler := fun w r s =>
  let (d, s) := next (newDelegator w) r s
  let l := labels r.Method d.Status
  (d.underlying, { s with metrics := counter l s.metrics })

/-- The function `promhttp.InstrumentHandlerDuration(obs, next)`: read the
clock, run `next` behind a delegator, then observe the elapsed seconds in
the child labelled with the delegator's status and the request method. -/
def InstrumentHandlerDuration (obs : ObserverVec) (next : Handler) : Handler := fun w r s =>
  let now := s.clock
  let (d, s) := next (newDelegator w) r s
  let l := labels r.Method d.Status
  (d.underlying, { s with metrics := obs l (Seconds (s.clock - now)) s.metrics })

/-! ## The chains (`main.go` lines 76-94) -/

def foundChain : Handler :=
  InstrumentHandlerDuration (httpRequestDuration_MustCurryWith "found" "/")
    (InstrumentHandlerCounter httpRequestsTotal foundHandler)

def fastRandomChain : Handler :=
  InstrumentHandlerDuration (httpRequestDuration_MustCurryWith "found" "/fast-random")
    (InstrumentHandlerCounter httpRequestsTotal fastRandomHandler)

def slowRandomChain : Handler :=
  InstrumentHandlerDuration (httpRequestDuration_MustCurryWith "found" "/slow-random")
    (InstrumentHandlerCounter httpRequestsTotal slowRandomHandler)

def summaryChain : Handler :=
  InstrumentHandlerDuration (httpRequestSummaryDuration_MustCurryWith "found" "/summary")
    (InstrumentHandlerCounter httpRequestsTotal fastRandomChain)

/-- The handler `promhttp.HandlerFor(r, promhttp.HandlerOpts{})`: gather the
registry and write its encoding.  The text encoder is a parameter; the
handler reads the instruments and changes none of them. -/
def metricsHandler (enc : Metrics → String) : Handler := fun w _ s =>
  (w.Write (enc s.metrics), s)

/-! ## `http.ServeMux` -/

/-- The inner loop of the `..` case of `path.Clean`: move the write index
down while it is above `dotdot` and does not sit on a slash. -/
def backtrack (out : List Char) (dotdot : Nat) : Nat → Nat
  | 0 => 0
  | w + 1 =>
    if w + 1 > dotdot && out.getD (w + 1) '/' != '/' then backtrack out dotdot w else w + 1

/-- The main loop of `path.Clean` over the read index `r`, the output
buffer `out` and the index `dotdot`.  Every round reads at least one
character, so `path.length` rounds are enough. -/
def cleanLoop (path : List Char) (rooted : Bool) : Nat → Nat → List Char → Nat → List Char
  | 0, _, out, _ => out
  | fuel + 1, r, out, dotdot =>
    let n := path.length
    if r < n then
      let c0 := path.getD r ' '
      let c1 := path.getD (r + 1) ' '
      let c2 := path.getD (r + 2) ' '
      if c0 == '/' then cleanLoop path rooted fuel (r + 1) out dotdot
      else if c0 == '.' && (r + 1 == n || c1 == '/') then
        cleanLoop path rooted fuel (r + 1) out dotdot
      else if c0 == '.' && c1 == '.' && (r + 2 == n || c2 == '/') then
        if out.length > dotdot then
          cleanLoop path rooted fuel (r + 2)
            (out.take (backtrack out dotdot (out.length - 1))) dotdot
        else if !rooted then
          let out := (if out.length > 0 then out ++ ['/'] else out) ++ ['.', '.']
          cleanLoop path rooted fuel (r + 2) out out.length
        else cleanLoop path rooted fuel (r + 2) out dotdot
      else
        let out :=
          if (rooted && out.length != 1) || (!rooted && out.length != 0) then out ++ ['/']
          else out
        let elem := (path.drop r).takeWhile (fun c => c != '/')
        cleanLoop path rooted fuel (r + elem.length) (out ++ elem) dotdot
    else out

/-- The function `path.Clean`. -/
def Clean (path : List Char) : List Char :=
  match path with
  | [] => ['.']
  | c :: _ =>
    let rooted := c == '/'
    let out :=
      if rooted then cleanLoop path rooted path.length 1 ['/'] 1
      else cleanLoop path rooted path.length 0 [] 0
    if out.length == 0 then ['.'] else out

/-- The function `cleanPath` of `net/http`: the canonical form of a request
path, rooted, without `.`, `..` and repeated slashes, keeping a trailing
slash. -/
def cleanPath (p : List Char) : List Char :=
  match p with
  | [] => ['/']
  | c :: _ =>
    let p := if c != '/' then '/' :: p else p
    let np := Clean p
    if p.getLast? == some '/' && np != ['/'] then
      if p.length == np.length + 1 && np.isPrefixOf p then p else np ++ ['/']
    else np

/-- The handlers `main` registers on the mux, by name. -/
inductive Registered where
  | foundChain
  | fastRandomChain
  | slowRandomChain
  | summaryChain
  | notfoundCounter
  | internalErrorCounter
  | metricsHandler
deriving DecidableEq

/-- One registration: `muxEntry{h, pattern}`. -/
structure muxEntry where
  h : Registered
  pattern : String
deriving DecidableEq

/-- The fields of `http.ServeMux`: the map `m` of all registrations and
the slice `es` of those whose pattern ends in a slash, longest first.  No
pattern of this program starts with a host name, so the field `hosts` stays
false and the host-specific lookup is left out. -/
structure ServeMux where
  m : List muxEntry
  es : List muxEntry
deriving DecidableEq

/-- The function `http.NewServeMux()`. -/
def NewServeMux : ServeMux := { m := [], es := [] }

/-- The function `appendSorted`: insert before the first entry with a
shorter pattern. -/
def appendSorted (e : muxEntry) : List muxEntry → List muxEntry
  | [] => [e]
  | x :: es =>
    if x.pattern.length < e.pattern.length then e :: x :: es else x :: appendSorted e es

/-- The method `mux.Handle(pattern, handler)`; `none` where Go panics (empty
pattern, pattern registered twice). -/
def ServeMux.Handle (mux : ServeMux) (pattern : String) (handler : Registered) :
    Option ServeMux :=
  if pattern = "" then none
  else if mux.m.any (fun e => e.pattern = pattern) then none
  else
    let e : muxEntry := { h := handler, pattern := pattern }
    some
      { m := mux.m ++ [e]
        es := if pattern.data.getLast? == some '/' then appendSorted e mux.es else mux.es }

/-- The method `mux.match(path)`: an exact match first, then the longest
pattern ending in a slash that is a leading part of the path. -/
def ServeMux.«match» (mux : ServeMux) (path : String) : Option muxEntry :=
  match mux.m.find? (fun e => e.pattern = path) with
  | some e => some e
  | none => mux.es.find? (fun e => e.pattern.data.isPrefixOf path.data)

/-- What the mux decides for a request: one of the registered handlers, a
redirect to another path, or the not-found handler. -/
inductive Dispatch where
  | registered (e : muxEntry)
  | RedirectHandler (path : String)
  | NotFoundHandler
deriving DecidableEq

/-- The method `mux.handler(host, path)` without the host lookup. -/
def ServeMux.handler (mux : ServeMux) (path : String) : Dispatch :=
  match mux.«match» path with
  | some e => .registered e
  | none => .NotFoundHandler

/-- The method `mux.shouldRedirectRLocked(host, path)`: the path is not
registered but the path followed by a slash is. -/
def ServeMux.shouldRedirect (mux : ServeMux) (path : String) : Bool :=
  if mux.m.any (fun e => e.pattern = path) then false
  else if path.data.length == 0 then false
  else if mux.m.any (fun e => e.pattern = path ++ "/") then path.data.getLast? != some '/'
  else false

/-- The method `mux.Handler(r)`.  A `CONNECT` request is looked up as it
is; any other request is looked up by its cleaned path and redirected to
it when the path was not clean. -/
def ServeMux.Handler (mux : ServeMux) (r : Request) : Dispatch :=
  if r.Method = "CONNECT" then
    if mux.shouldRedirect r.Path then .RedirectHandler (r.Path ++ "/")
    else mux.handler r.Path
  else
    let path := String.mk (cleanPath r.Path.data)
    if mux.shouldRedirect path then .RedirectHandler (path ++ "/")
    else if path ≠ r.Path then .RedirectHandler path
    else mux.handler r.Path

/-! ## `main` (lines 41-50 and 96-108) -/

/-- The instruments after `version.Set(1)` and the four `MustRegister`
calls: the gauge is 1, the three vectors have no child yet. -/
def initialMetrics : Metrics :=
  { version := 1, httpRequestsTotal := [], httpRequestDuration := [],
    httpRequestSummaryDuration := [] }

/-- The seven `mux.Handle` calls of `main`, in program order. -/
def registerAll : Option ServeMux := do
  let mux ← NewServeMux.Handle "/" .foundChain
  let mux ← mux.Handle "/fast-random" .fastRandomChain
  let mux ← mux.Handle "/slow-random" .slowRandomChain
  let mux ← mux.Handle "/summary" .summaryChain
  let mux ← mux.Handle "/error" .notfoundCounter
  let mux ← mux.Handle "/internal-error" .internalErrorCounter
  mux.Handle "/metrics" .metricsHandler

/-- The mux of `main` (none of the seven registrations panics). -/
def mux : ServeMux := registerAll.getD NewServeMux

/-- The handler behind each registration (lines 97-103). -/
def Registered.ServeHTTP (enc : Metrics → String) : Registered → Handler
  | .foundChain => MetricsDemo.foundChain
  | .fastRandomChain => MetricsDemo.fastRandomChain
  | .slowRandomChain => MetricsDemo.slowRandomChain
  | .summaryChain => MetricsDemo.summaryChain
  | .notfoundCounter => InstrumentHandlerCounter httpRequestsTotal notfoundHandler
  | .internalErrorCounter => InstrumentHandlerCounter httpRequestsTotal internalErrorHandler
  | .metricsHandler => MetricsDemo.metricsHandler enc

/-- The handlers the mux answers with on its own: a redirect writes status
301 (its `Location` header and short HTML body are left out), not-found
writes 404 and the text `404 page not found`. -/
def Dispatch.ServeHTTP (enc : Metrics → String) : Dispatch → Handler
  | .registered e => e.h.ServeHTTP enc
  | .RedirectHandler _ => fun w _ s => (w.WriteHeader StatusMovedPermanently, s)
  | .NotFoundHandler => fun w _ s =>
    ((w.WriteHeader StatusNotFound).Write "404 page not found\n", s)

/-- The method `mux.ServeHTTP(w, r)`.  The request target `*` (its path is
then `*`) is answered with 400; every other request goes to the handler
`mux.Handler` picks. -/
def ServeMux.ServeHTTP (enc : Metrics → String) (mux : ServeMux) : MetricsDemo.Handler :=
  fun w r s =>
  if r.Path = "*" then (w.WriteHeader StatusBadRequest, s)
  else (mux.Handler r).ServeHTTP enc w r s

/-- The server serving one request: a fresh `response` for that request is
handed to the mux. -/
def serve (enc : Metrics → String) (r : Request) (s : World) : ResponseWriter × World :=
  mux.ServeHTTP enc (.response r.Method false 0 "") r s

/-- The process state after serving the requests one after the other. -/
def serveAll (enc : Metrics → String) (rs : List Request) (s : World) : World :=
  rs.foldl (fun s r => (serve enc r s).2) s

/-- A world to evaluate the program on: the state `main` starts from, with
a random source that always yields 1234567. -/
def exampleWorld : World :=
  { metrics := initialMetrics, clock := 0, randSrc := fun _ => 1234567, randIdx := 0 }

/-- The invariant of the histogram vector: every child has the configured
boundaries and no label combination occurs twice. -/
def HistogramVec.WellFormed (vec : HistogramVec) : Prop :=
  (∀ p ∈ vec, p.2.upperBounds = Buckets) ∧ (vec.map Prod.fst).Nodup

/-! ## The response writer -/

/-- The combined step used inside `Write` is the header call followed by
the write call. -/
theorem WriteHeaderThenWrite_eq (code : Nat) (b : String) (w : ResponseWriter) :
    w.WriteHeaderThenWrite code b = (w.WriteHeader code).Write b := by
  induction w with
  | response reqMethod wroteHeader status body =>
    cases wroteHeader <;>
      simp [ResponseWriter.WriteHeaderThenWrite, ResponseWriter.WriteHeader,
        ResponseWriter.Write]
  | responseWriterDelegator inner status wroteHeader ih =>
    simp [ResponseWriter.WriteHeaderThenWrite, ResponseWriter.WriteHeader,
      ResponseWriter.Write, ih]

/-! ## The cleaning loop never runs out of rounds -/

/-- A path element that does not start with a slash has at least one
character. -/
theorem takeWhile_elem_pos (path : List Char) :
    ∀ r : Nat, r < path.length → (path.getD r ' ' == '/') = false →
      1 ≤ ((path.drop r).takeWhile (fun c => c != '/')).length := by
  induction path with
  | nil => intro r hr; simp at hr
  | cons c t ih =>
    intro r hr hc
    cases r with
    | zero =>
      have hc' : (c == '/') = false := by simpa using hc
      have hb : (c != '/') = true := by simp only [bne, hc', Bool.not_false]
      simp only [List.drop_zero, List.takeWhile_cons, hb, if_true, List.length_cons]
      omega
    | succ n =>
      have hn : n < t.length := by simpa using hr
      have hc' : (t.getD n ' ' == '/') = false := by simpa using hc
      simpa using ih n hn hc'

/-- With at least as many rounds as characters left to read, one more
round changes nothing. -/
theorem cleanLoop_fuel (path : List Char) (rooted : Bool) (fuel : Nat) :
    ∀ (r : Nat) (out : List Char) (dotdot : Nat), path.length - r ≤ fuel →
      cleanLoop path rooted (fuel + 1) r out dotdot = cleanLoop path rooted fuel r out dotdot := by
  induction fuel with
  | zero =>
    intro r out dotdot h
    have hr : ¬ r < path.length := by omega
    simp [cleanLoop, hr]
  | succ k ih =>
    intro r out dotdot h
    rw [cleanLoop]
    conv_rhs => rw [cleanLoop]
    by_cases hr : r < path.length
    · have h1 : path.length - (r + 1) ≤ k := by omega
      have h2 : path.length - (r + 2) ≤ k := by omega
      simp only [hr, if_true]
      by_cases c1 : (path.getD r ' ' == '/') = true
      · simp only [c1, if_true]
        exact ih _ _ _ h1
      · have c1' : (path.getD r ' ' == '/') = false := by simpa using c1
        have hpos := takeWhile_elem_pos path r hr c1'
        simp only [c1', Bool.false_eq_true, if_false, ih _ _ _ h1, ih _ _ _ h2]
        have h3 : path.length -
            (r + ((path.drop r).takeWhile (fun c => c != '/')).length) ≤ k := by omega
        simp only [ih _ _ _ h3]
    · simp only [hr, if_false]

/-- Any number of rounds beyond the length of the path gives the result of
`path.length` rounds: the loop of `Clean` always runs to its end. -/
theorem cleanLoop_enough_rounds (path : List Char) (rooted : Bool) (extra r : Nat)
    (out : List Char) (dotdot : Nat) :
    cleanLoop path rooted (path.length + extra) r out dotdot =
      cleanLoop path rooted path.length r out dotdot := by
  induction extra with
  | zero => rfl
  | succ k ih =>
    rw [← ih, ← Nat.add_assoc]
    exact cleanLoop_fuel path rooted (path.length + k) r out dotdot (by omega)

/-! ## Routing lemmas -/

/-- The seven registrations succeed and give the mux below. -/
theorem registerAll_eq :
    registerAll = some
      { m := [⟨.foundChain, "/"⟩, ⟨.fastRandomChain, "/fast-random"⟩,
              ⟨.slowRandomChain, "/slow-random"⟩, ⟨.summaryChain, "/summary"⟩,
              ⟨.notfoundCounter, "/error"⟩, ⟨.internalErrorCounter, "/internal-error"⟩,
              ⟨.metricsHandler, "/metrics"⟩]
        es := [⟨.foundChain, "/"⟩] } := by
  decide

/-- The mux of `main`, spelled out. -/
theorem mux_eq :
    mux =
      { m := [⟨.foundChain, "/"⟩, ⟨.fastRandomChain, "/fast-random"⟩,
              ⟨.slowRandomChain, "/slow-random"⟩, ⟨.summaryChain, "/summary"⟩,
              ⟨.notfoundCounter, "/error"⟩, ⟨.internalErrorCounter, "/internal-error"⟩,
              ⟨.metricsHandler, "/metrics"⟩]
        es := [⟨.foundChain, "/"⟩] } := by
  decide

theorem append_slash_ne (p q : String) (hq : q.data.getLast? ≠ some '/') : p ++ "/" ≠ q := by
  intro h
  apply hq
  rw [← h]
  simp [String.data_append]

theorem mux_shouldRedirect (p : String) : mux.shouldRedirect p = false := by
  have h1 := append_slash_ne p "/fast-random" (by decide)
  have h2 := append_slash_ne p "/slow-random" (by decide)
  have h3 := append_slash_ne p "/summary" (by decide)
  have h4 := append_slash_ne p "/error" (by decide)
  have h5 := append_slash_ne p "/internal-error" (by decide)
  have h6 := append_slash_ne p "/metrics" (by decide)
  by_cases h0 : p.data.length = 0
  · simp [ServeMux.shouldRedirect, mux_eq, h0]
  · have h7 : p ++ "/" ≠ "/" := by
      intro h
      apply h0
      have := congrArg (fun x => x.data.length) h
      simp [String.data_append] at this
      simp [this]
    simp [ServeMux.shouldRedirect, mux_eq, h0, Ne.symm h1, Ne.symm h2, Ne.symm h3, Ne.symm h4, Ne.symm h5, Ne.symm h6, Ne.symm h7]

theorem mux_handler_eq (p : String) :
    mux.handler p =
      if p = "/" then .registered ⟨.foundChain, "/"⟩
      else if p = "/fast-random" then .registered ⟨.fastRandomChain, "/fast-random"⟩
      else if p = "/slow-random" then .registered ⟨.slowRandomChain, "/slow-random"⟩
      else if p = "/summary" then .registered ⟨.summaryChain, "/summary"⟩
      else if p = "/error" then .registered ⟨.notfoundCounter, "/error"⟩
      else if p = "/internal-error" then .registered ⟨.internalErrorCounter, "/internal-error"⟩
      else if p = "/metrics" then .registered ⟨.metricsHandler, "/metrics"⟩
      else if p.data.head? = some '/' then .registered ⟨.foundChain, "/"⟩
      else .NotFoundHandler := by
  simp only [ServeMux.handler, ServeMux.«match», mux_eq, List.find?]
  by_cases h0 : p = "/"
  · subst h0; decide
  by_cases h1 : p = "/fast-random"
  · subst h1; decide
  by_cases h2 : p = "/slow-random"
  · subst h2; decide
  by_cases h3 : p = "/summary"
  · subst h3; decide
  by_cases h4 : p = "/error"
  · subst h4; decide
  by_cases h5 : p = "/internal-error"
  · subst h5; decide
  by_cases h6 : p = "/metrics"
  · subst h6; decide
  simp only [Ne.symm h0, Ne.symm h1, Ne.symm h2, Ne.symm h3, Ne.symm h4, Ne.symm h5, Ne.symm h6, h0, h1, h2, h3, h4, h5, h6, decide_False, if_false]
  rcases hp : p.data with _ | ⟨c, t⟩
  · simp [List.isPrefixOf]
  · by_cases hc : c = '/'
    · simp [List.isPrefixOf, hc]
    · have hb : ('/' == c) = false := beq_eq_false_iff_ne.mpr (Ne.symm hc)
      simp [List.isPrefixOf, hc, hb]

theorem mux_Handler_eq (r : Request) :
    mux.Handler r =
      if r.Method = "CONNECT" ∨ String.mk (cleanPath r.Path.data) = r.Path then mux.handler r.Path
      else .RedirectHandler (String.mk (cleanPath r.Path.data)) := by
  unfold ServeMux.Handler
  simp only [mux_shouldRedirect]
  by_cases hc : r.Method = "CONNECT"
  · simp [hc]
  · by_cases hp : String.mk (cleanPath r.Path.data) = r.Path <;> simp [hc, hp]

theorem Handler_root (r : Request) (h : r.Path = "/") :
    mux.Handler r = .registered ⟨.foundChain, "/"⟩ := by
  unfold ServeMux.Handler
  rw [h]
  split <;> decide

theorem Handler_fastRandom (r : Request) (h : r.Path = "/fast-random") :
    mux.Handler r = .registered ⟨.fastRandomChain, "/fast-random"⟩ := by
  unfold ServeMux.Handler
  rw [h]
  split <;> decide

theorem Handler_slowRandom (r : Request) (h : r.Path = "/slow-random") :
    mux.Handler r = .registered ⟨.slowRandomChain, "/slow-random"⟩ := by
  unfold ServeMux.Handler
  rw [h]
  split <;> decide

theorem Handler_summary (r : Request) (h : r.Path = "/summary") :
    mux.Handler r = .registered ⟨.summaryChain, "/summary"⟩ := by
  unfold ServeMux.Handler
  rw [h]
  split <;> decide

theorem Handler_error (r : Request) (h : r.Path = "/error") :
    mux.Handler r = .registered ⟨.notfoundCounter, "/error"⟩ := by
  unfold ServeMux.Handler
  rw [h]
  split <;> decide

theorem Handler_internalError (r : Request) (h : r.Path = "/internal-error") :
    mux.Handler r = .registered ⟨.internalErrorCounter, "/internal-error"⟩ := by
  unfold ServeMux.Handler
  rw [h]
  split <;> decide

theorem Handler_metrics (r : Request) (h : r.Path = "/metrics") :
    mux.Handler r = .registered ⟨.metricsHandler, "/metrics"⟩ := by
  unfold ServeMux.Handler
  rw [h]
  split <;> decide

/-- Serving a request whose path is not `*` runs the handler the mux picks
on a fresh response. -/
theorem serve_of_Handler (enc : Metrics → String) (r : Request) (s : World) (d : Dispatch)
    (hstar : r.Path ≠ "*") (hd : mux.Handler r = d) :
    serve enc r s = d.ServeHTTP enc (.response r.Method false 0 "") r s := by
  simp only [serve, ServeMux.ServeHTTP, hstar, if_false, hd]

theorem serve_root (enc : Metrics → String) (r : Request) (s : World) (h : r.Path = "/") :
    serve enc r s = foundChain (.response r.Method false 0 "") r s :=
  serve_of_Handler enc r s _ (by rw [h]; decide) (Handler_root r h)

theorem serve_fastRandom (enc : Metrics → String) (r : Request) (s : World)
    (h : r.Path = "/fast-random") :
    serve enc r s = fastRandomChain (.response r.Method false 0 "") r s :=
  serve_of_Handler enc r s _ (by rw [h]; decide) (Handler_fastRandom r h)

theorem serve_slowRandom (enc : Metrics → String) (r : Request) (s : World)
    (h : r.Path = "/slow-random") :
    serve enc r s = slowRandomChain (.response r.Method false 0 "") r s :=
  serve_of_Handler enc r s _ (by rw [h]; decide) (Handler_slowRandom r h)

theorem serve_summary (enc : Metrics → String) (r : Request) (s : World)
    (h : r.Path = "/summary") :
    serve enc r s = summaryChain (.response r.Method false 0 "") r s :=
  serve_of_Handler enc r s _ (by rw [h]; decide) (Handler_summary r h)

theorem serve_error (enc : Metrics → String) (r : Request) (s : World)
    (h : r.Path = "/error") :
    serve enc r s =
      InstrumentHandlerCounter httpRequestsTotal notfoundHandler (.response r.Method false 0 "") r s :=
  serve_of_Handler enc r s _ (by rw [h]; decide) (Handler_error r h)

theorem serve_internalError (enc : Metrics → String) (r : Request) (s : World)
    (h : r.Path = "/internal-error") :
    serve enc r s =
      InstrumentHandlerCounter httpRequestsTotal internalErrorHandler (.response r.Method false 0 "") r s :=
  serve_of_Handler enc r s _ (by rw [h]; decide) (Handler_internalError r h)

theorem serve_metrics (enc : Metrics → String) (r : Request) (s : World)
    (h : r.Path = "/metrics") :
    serve enc r s = metricsHandler enc (.response r.Method false 0 "") r s :=
  serve_of_Handler enc r s _ (by rw [h]; decide) (Handler_metrics r h)

/-! ## Fixed responses -/

/-- Counterexample to C1 as stated: a `HEAD` request to `/` is answered with
status 200 but with an empty body, not with the text `Endpoint estável`. -/
theorem head_root_has_no_body :
    (serve (fun _ => "") ⟨"HEAD", "", "/", []⟩ exampleWorld).1.finalStatus = 200 ∧
    (serve (fun _ => "") ⟨"HEAD", "", "/", []⟩ exampleWorld).1.finalBody = "" ∧
    (serve (fun _ => "") ⟨"HEAD", "", "/", []⟩ exampleWorld).1.finalBody ≠ "Endpoint estável" := by
  decide

/-- C1, as amended. Every request whose path is exactly `/`, whatever its
method, host and headers and whatever the state of the process, is answered
with status 200; the body is the text `Endpoint estável`, except that the
answer to a `HEAD` request has no body. -/
theorem root_answers_200_fixed_text (enc : Metrics → String) (r : Request) (s : World)
    (h : r.Path = "/") :
    (serve enc r s).1.finalStatus = 200 ∧
    (r.Method ≠ "HEAD" → (serve enc r s).1.finalBody = "Endpoint estável") ∧
    (r.Method = "HEAD" → (serve enc r s).1.finalBody = "") := by
  rw [serve_root enc r s h]
  have hb : (foundChain (.response r.Method false 0 "") r s).1.finalBody =
      sendBody r.Method 200 "" "Endpoint estável" := rfl
  refine ⟨rfl, ?_, ?_⟩
  · intro hm
    rw [hb]
    simp [sendBody, bodyAllowedForStatus, hm]
  · intro hm
    rw [hb]
    simp [sendBody, hm]

/-- Witness for C1 as amended: a `POST` to `/` with a header, on the initial
state. -/
theorem root_answers_200_fixed_text_witness :
    (serve (fun _ => "") ⟨"POST", "example.org", "/", [("Accept", "text/html")]⟩
        exampleWorld).1.finalStatus = 200 ∧
    ((⟨"POST", "example.org", "/", [("Accept", "text/html")]⟩ : Request).Method ≠ "HEAD" →
      (serve (fun _ => "") ⟨"POST", "example.org", "/", [("Accept", "text/html")]⟩
        exampleWorld).1.finalBody = "Endpoint estável") ∧
    ((⟨"POST", "example.org", "/", [("Accept", "text/html")]⟩ : Request).Method = "HEAD" →
      (serve (fun _ => "") ⟨"POST", "example.org", "/", [("Accept", "text/html")]⟩
        exampleWorld).1.finalBody = "") :=
  root_answers_200_fixed_text (fun _ => "") ⟨"POST", "example.org", "/", [("Accept", "text/html")]⟩
    exampleWorld rfl

/-- C2. Every request to `/error` is answered with status 404 and an empty
body, and every request to `/internal-error` with status 500 and an empty
body, whatever the method. -/
theorem error_paths_fixed_status_empty_body (enc : Metrics → String) (r₁ r₂ : Request)
    (s : World) (h₁ : r₁.Path = "/error") (h₂ : r₂.Path = "/internal-error") :
    ((serve enc r₁ s).1.finalStatus = 404 ∧ (serve enc r₁ s).1.finalBody = "") ∧
    ((serve enc r₂ s).1.finalStatus = 500 ∧ (serve enc r₂ s).1.finalBody = "") := by
  rw [serve_error enc r₁ s h₁, serve_internalError enc r₂ s h₂]
  refine ⟨⟨?_, ?_⟩, ?_, ?_⟩ <;> rfl

/-- Witness for C2: a `DELETE` to `/error` and a `PUT` to `/internal-error`. -/
theorem error_paths_fixed_status_empty_body_witness :
    ((serve (fun _ => "") ⟨"DELETE", "", "/error", []⟩ exampleWorld).1.finalStatus = 404 ∧
      (serve (fun _ => "") ⟨"DELETE", "", "/error", []⟩ exampleWorld).1.finalBody = "") ∧
    ((serve (fun _ => "") ⟨"PUT", "", "/internal-error", []⟩ exampleWorld).1.finalStatus = 500 ∧
      (serve (fun _ => "") ⟨"PUT", "", "/internal-error", []⟩ exampleWorld).1.finalBody = "") :=
  error_paths_fixed_status_empty_body (fun _ => "") ⟨"DELETE", "", "/error", []⟩
    ⟨"PUT", "", "/internal-error", []⟩ exampleWorld rfl rfl

/-- C5. Serving `/metrics` changes no instrument: the request counter and
both duration instruments are the same before and after, for every state
and every request to that path. -/
theorem metrics_scrape_changes_no_instrument (enc : Metrics → String) (r : Request) (s : World)
    (h : r.Path = "/metrics") :
    (serve enc r s).2.metrics.httpRequestsTotal = s.metrics.httpRequestsTotal ∧
    (serve enc r s).2.metrics.httpRequestDuration = s.metrics.httpRequestDuration ∧
    (serve enc r s).2.metrics.httpRequestSummaryDuration =
      s.metrics.httpRequestSummaryDuration := by
  rw [serve_metrics enc r s h]
  exact ⟨rfl, rfl, rfl⟩

/-- Witness for C5: a `GET` to `/metrics` on the initial state. -/
theorem metrics_scrape_changes_no_instrument_witness :
    (serve (fun _ => "") ⟨"GET", "", "/metrics", []⟩ exampleWorld).2.metrics.httpRequestsTotal
      = exampleWorld.metrics.httpRequestsTotal ∧
    (serve (fun _ => "") ⟨"GET", "", "/metrics", []⟩ exampleWorld).2.metrics.httpRequestDuration
      = exampleWorld.metrics.httpRequestDuration ∧
    (serve (fun _ => "") ⟨"GET", "", "/metrics", []⟩
        exampleWorld).2.metrics.httpRequestSummaryDuration
      = exampleWorld.metrics.httpRequestSummaryDuration :=
  metrics_scrape_changes_no_instrument (fun _ => "") ⟨"GET", "", "/metrics", []⟩ exampleWorld rfl

/-- C6. Whatever the random source yields, the fast-random handler sleeps a
whole number `d` of milliseconds with `d < 500` and the slow-random handler
one with `d < 2000`, and each of them then writes status 200: the delegator
in front of it records 200 and a fresh response, to a request of any
method, ends with status 200. -/
theorem random_delay_bounded_status_ok (w : ResponseWriter) (m : String) (r : Request)
    (s : World) :
    (∃ d : Nat, d < 500 ∧
      (fastRandomHandler w r s).2.clock = s.clock + d * Millisecond) ∧
    (fastRandomHandler (newDelegator w) r s).1.Status = 200 ∧
    (fastRandomHandler (.response m false 0 "") r s).1.finalStatus = 200 ∧
    (∃ d : Nat, d < 2000 ∧
      (slowRandomHandler w r s).2.clock = s.clock + d * Millisecond) ∧
    (slowRandomHandler (newDelegator w) r s).1.Status = 200 ∧
    (slowRandomHandler (.response m false 0 "") r s).1.finalStatus = 200 := by
  refine ⟨⟨s.randSrc s.randIdx % 500, Nat.mod_lt _ (by decide), rfl⟩, rfl, rfl,
    ⟨s.randSrc s.randIdx % 2000, Nat.mod_lt _ (by decide), rfl⟩, rfl, rfl⟩

/-! ## Routing -/

/-- Counterexample to C7 as stated: the stable handler bound to `/` is
picked for a `GET` request to `/foo`, so it does not only serve the path
`/`. -/
theorem root_handler_serves_other_paths :
    ¬ (∀ r : Request, mux.Handler r = .registered ⟨.foundChain, "/"⟩ → r.Path = "/") := by
  intro h
  have h1 := h ⟨"GET", "", "/foo", []⟩ (by decide)
  exact absurd h1 (by decide)

/-- C7, as amended. The six paths `/fast-random`, `/slow-random`, `/summary`,
`/error`, `/internal-error` and `/metrics` are matched exactly: a request
goes to the handler registered for one of them if and only if its path is
that path.  The pattern `/` matches a whole subtree: the stable handler
gets every request whose path starts with a slash and is none of those six,
provided the path is in canonical form or the method is `CONNECT` (other
requests are redirected to the canonical path). -/
theorem routing_exact_except_root_subtree (r : Request) :
    (mux.Handler r = .registered ⟨.fastRandomChain, "/fast-random"⟩ ↔ r.Path = "/fast-random") ∧
    (mux.Handler r = .registered ⟨.slowRandomChain, "/slow-random"⟩ ↔ r.Path = "/slow-random") ∧
    (mux.Handler r = .registered ⟨.summaryChain, "/summary"⟩ ↔ r.Path = "/summary") ∧
    (mux.Handler r = .registered ⟨.notfoundCounter, "/error"⟩ ↔ r.Path = "/error") ∧
    (mux.Handler r = .registered ⟨.internalErrorCounter, "/internal-error"⟩ ↔
      r.Path = "/internal-error") ∧
    (mux.Handler r = .registered ⟨.metricsHandler, "/metrics"⟩ ↔ r.Path = "/metrics") ∧
    (mux.Handler r = .registered ⟨.foundChain, "/"⟩ ↔
      r.Path ∉ ["/fast-random", "/slow-random", "/summary", "/error", "/internal-error",
        "/metrics"] ∧
      r.Path.data.head? = some '/' ∧
      (r.Method = "CONNECT" ∨ String.mk (cleanPath r.Path.data) = r.Path)) := by
  refine ⟨⟨?_, Handler_fastRandom r⟩, ⟨?_, Handler_slowRandom r⟩, ⟨?_, Handler_summary r⟩,
    ⟨?_, Handler_error r⟩, ⟨?_, Handler_internalError r⟩, ⟨?_, Handler_metrics r⟩, ?_⟩
  all_goals
    rw [mux_Handler_eq, mux_handler_eq]
    by_cases hm : r.Method = "CONNECT" ∨ String.mk (cleanPath r.Path.data) = r.Path
    · simp only [hm, if_true]
      by_cases h0 : r.Path = "/"
      · simp [h0]
      by_cases h1 : r.Path = "/fast-random"
      · simp [h1]
      by_cases h2 : r.Path = "/slow-random"
      · simp [h2]
      by_cases h3 : r.Path = "/summary"
      · simp [h3]
      by_cases h4 : r.Path = "/error"
      · simp [h4]
      by_cases h5 : r.Path = "/internal-error"
      · simp [h5]
      by_cases h6 : r.Path = "/metrics"
      · simp [h6]
      by_cases h7 : r.Path.data.head? = some '/' <;> simp [h0, h1, h2, h3, h4, h5, h6, h7]
    · simp [hm]

/-! ## Counter and vector lemmas -/

theorem CounterVec.value_Inc_self (l : CounterLabels) (c : CounterVec) :
    CounterVec.value l (CounterVec.Inc l c) = CounterVec.value l c + 1 := by
  induction c with
  | nil => simp [CounterVec.Inc, CounterVec.value]
  | cons p rest ih =>
    obtain ⟨k, v⟩ := p
    by_cases hk : k = l
    · simp [CounterVec.Inc, CounterVec.value, hk]
    · simp [CounterVec.Inc, CounterVec.value, hk, ih]

theorem CounterVec.value_Inc_of_ne (l l' : CounterLabels) (c : CounterVec) (h : l' ≠ l) :
    CounterVec.value l' (CounterVec.Inc l c) = CounterVec.value l' c := by
  induction c with
  | nil => simp [CounterVec.Inc, CounterVec.value, Ne.symm h]
  | cons p rest ih =>
    obtain ⟨k, v⟩ := p
    by_cases hk : k = l
    · subst hk
      simp [CounterVec.Inc, CounterVec.value, Ne.symm h]
    · by_cases hk' : k = l'
      · subst hk'
        simp [CounterVec.Inc, CounterVec.value, hk]
      · simp [CounterVec.Inc, CounterVec.value, hk, hk', ih]

theorem CounterVec.total_Inc (l : CounterLabels) (c : CounterVec) :
    CounterVec.total (CounterVec.Inc l c) = CounterVec.total c + 1 := by
  induction c with
  | nil => simp [CounterVec.Inc, CounterVec.total]
  | cons p rest ih =>
    obtain ⟨k, v⟩ := p
    by_cases hk : k = l
    · simp [CounterVec.Inc, CounterVec.total, hk]; omega
    · simp [CounterVec.Inc, CounterVec.total, hk, ih]; omega

theorem histogram_observations_Observe (l : DurationLabels) (v : ℚ) (c : HistogramVec) :
    HistogramVec.observations (HistogramVec.Observe l v c) = HistogramVec.observations c + 1 := by
  induction c with
  | nil => simp [HistogramVec.Observe, HistogramVec.observations, histogram.Observe, newHistogram]
  | cons p rest ih =>
    obtain ⟨k, h⟩ := p
    by_cases hk : k = l
    · simp [HistogramVec.Observe, HistogramVec.observations, histogram.Observe, hk]; omega
    · simp [HistogramVec.Observe, HistogramVec.observations, hk, ih]; omega

theorem summary_observations_Observe (l : DurationLabels) (v : ℚ) (c : SummaryVec) :
    SummaryVec.observations (SummaryVec.Observe l v c) = SummaryVec.observations c + 1 := by
  induction c with
  | nil => simp [SummaryVec.Observe, SummaryVec.observations, summary.Observe]
  | cons p rest ih =>
    obtain ⟨k, h⟩ := p
    by_cases hk : k = l
    · simp [SummaryVec.Observe, SummaryVec.observations, summary.Observe, hk]; omega
    · simp [SummaryVec.Observe, SummaryVec.observations, hk, ih]; omega

/-! ## Request accounting -/

/-- What one request to `/` does to the request counter. -/
theorem serve_root_counter (enc : Metrics → String) (r : Request) (s : World)
    (h : r.Path = "/") :
    (serve enc r s).2.metrics.httpRequestsTotal =
      s.metrics.httpRequestsTotal.Inc ⟨"200", sanitizeMethod r.Method⟩ := by
  rw [serve_root enc r s h]
  show s.metrics.httpRequestsTotal.Inc (labels r.Method 200) = _
  rfl

/-- Counterexample to C3 as stated: after one `GET /` on the initial state
the counter for `code="200", method="GET"` is still 0, not 1. -/
theorem get_root_not_counted_under_uppercase_GET :
    CounterVec.value ⟨"200", "GET"⟩
        (serveAll (fun _ => "") [⟨"GET", "", "/", []⟩] exampleWorld).metrics.httpRequestsTotal
      ≠ CounterVec.value ⟨"200", "GET"⟩ exampleWorld.metrics.httpRequestsTotal + 1 := by
  decide

/-- C3, as amended. After any number of `GET` requests to `/` and no other
request, the counter for `code="200", method="get"` (the middleware reports
the method in lower case) is greater than before by exactly the number of
requests, and the counter of every other label combination is unchanged. -/
theorem get_root_counted_once_each (enc : Metrics → String) (rs : List Request) (s : World)
    (h : ∀ r ∈ rs, r.Method = "GET" ∧ r.Path = "/") :
    CounterVec.value ⟨"200", "get"⟩ (serveAll enc rs s).metrics.httpRequestsTotal =
      CounterVec.value ⟨"200", "get"⟩ s.metrics.httpRequestsTotal + rs.length ∧
    ∀ l : CounterLabels, l ≠ ⟨"200", "get"⟩ →
      CounterVec.value l (serveAll enc rs s).metrics.httpRequestsTotal =
        CounterVec.value l s.metrics.httpRequestsTotal := by
  induction rs generalizing s with
  | nil => simp [serveAll]
  | cons r rest ih =>
    have hr := h r (List.mem_cons_self _ _)
    have hrest : ∀ q ∈ rest, q.Method = "GET" ∧ q.Path = "/" :=
      fun q hq => h q (List.mem_cons_of_mem _ hq)
    have hstep := serve_root_counter enc r s hr.2
    have hm : sanitizeMethod r.Method = "get" := by rw [hr.1]; decide
    rw [hm] at hstep
    have ih' := ih (serve enc r s).2 hrest
    have hfold : serveAll enc (r :: rest) s = serveAll enc rest (serve enc r s).2 := rfl
    rw [hfold]
    refine ⟨?_, ?_⟩
    · rw [ih'.1, hstep, CounterVec.value_Inc_self, List.length_cons]
      omega
    · intro l hl
      rw [ih'.2 l hl, hstep, CounterVec.value_Inc_of_ne _ _ _ hl]

/-- Witness for C3 as amended: three `GET` requests to `/`. -/
theorem get_root_counted_once_each_witness :
    CounterVec.value ⟨"200", "get"⟩
        (serveAll (fun _ => "") [⟨"GET", "", "/", []⟩, ⟨"GET", "", "/", []⟩, ⟨"GET", "", "/", []⟩]
          exampleWorld).metrics.httpRequestsTotal =
      CounterVec.value ⟨"200", "get"⟩ exampleWorld.metrics.httpRequestsTotal + 3 ∧
    ∀ l : CounterLabels, l ≠ ⟨"200", "get"⟩ →
      CounterVec.value l
          (serveAll (fun _ => "") [⟨"GET", "", "/", []⟩, ⟨"GET", "", "/", []⟩, ⟨"GET", "", "/", []⟩]
            exampleWorld).metrics.httpRequestsTotal =
        CounterVec.value l exampleWorld.metrics.httpRequestsTotal :=
  get_root_counted_once_each (fun _ => "")
    [⟨"GET", "", "/", []⟩, ⟨"GET", "", "/", []⟩, ⟨"GET", "", "/", []⟩] exampleWorld
    (by decide)

/-- C4, code as it is. One request to `/summary` raises the request counter,
summed over all label combinations, by two: `summaryChain` wraps
`fastRandomChain`, which already counts, in a second counter. -/
theorem summary_request_counted_twice (enc : Metrics → String) (r : Request) (s : World)
    (h : r.Path = "/summary") :
    CounterVec.total (serve enc r s).2.metrics.httpRequestsTotal =
      CounterVec.total s.metrics.httpRequestsTotal + 2 := by
  rw [serve_summary enc r s h]
  have hc : (summaryChain (.response r.Method false 0 "") r s).2.metrics.httpRequestsTotal =
      (s.metrics.httpRequestsTotal.Inc ⟨"200", sanitizeMethod r.Method⟩).Inc
        ⟨"200", sanitizeMethod r.Method⟩ := by
    show (s.metrics.httpRequestsTotal.Inc (labels r.Method 200)).Inc (labels r.Method 200) = _
    rfl
  rw [hc, CounterVec.total_Inc, CounterVec.total_Inc]

/-- Witness for C4: one `GET` to `/summary` on the initial state, where the
total goes from 0 to 2. -/
theorem summary_request_counted_twice_witness :
    CounterVec.total
        (serve (fun _ => "") ⟨"GET", "", "/summary", []⟩ exampleWorld).2.metrics.httpRequestsTotal =
      CounterVec.total exampleWorld.metrics.httpRequestsTotal + 2 :=
  summary_request_counted_twice (fun _ => "") ⟨"GET", "", "/summary", []⟩ exampleWorld rfl

/-- C8, code as it is. One request to `/summary` adds one observation to the
summary under `handler="found", endpoint="/summary"` and, because the chain
runs through `fastRandomChain`, also one observation to the histogram under
`handler="found", endpoint="/fast-random"`: both instruments gain one
observation. -/
theorem summary_request_also_in_histogram (enc : Metrics → String) (r : Request) (s : World)
    (h : r.Path = "/summary") :
    (serve enc r s).2.metrics.httpRequestSummaryDuration =
      s.metrics.httpRequestSummaryDuration.Observe
        ⟨"200", "found", sanitizeMethod r.Method, "/summary"⟩
        (Seconds ((serve enc r s).2.clock - s.clock)) ∧
    (serve enc r s).2.metrics.httpRequestDuration =
      s.metrics.httpRequestDuration.Observe
        ⟨"200", "found", sanitizeMethod r.Method, "/fast-random"⟩
        (Seconds ((serve enc r s).2.clock - s.clock)) ∧
    SummaryVec.observations (serve enc r s).2.metrics.httpRequestSummaryDuration =
      SummaryVec.observations s.metrics.httpRequestSummaryDuration + 1 ∧
    HistogramVec.observations (serve enc r s).2.metrics.httpRequestDuration =
      HistogramVec.observations s.metrics.httpRequestDuration + 1 := by
  rw [serve_summary enc r s h]
  have hs : (summaryChain (.response r.Method false 0 "") r s).2.metrics.httpRequestSummaryDuration =
      s.metrics.httpRequestSummaryDuration.Observe
        ⟨"200", "found", sanitizeMethod r.Method, "/summary"⟩
        (Seconds ((summaryChain (.response r.Method false 0 "") r s).2.clock - s.clock)) := by
    show s.metrics.httpRequestSummaryDuration.Observe
        ⟨(labels r.Method 200).code, "found", (labels r.Method 200).method, "/summary"⟩ _ = _
    rfl
  have hh : (summaryChain (.response r.Method false 0 "") r s).2.metrics.httpRequestDuration =
      s.metrics.httpRequestDuration.Observe
        ⟨"200", "found", sanitizeMethod r.Method, "/fast-random"⟩
        (Seconds ((summaryChain (.response r.Method false 0 "") r s).2.clock - s.clock)) := by
    show s.metrics.httpRequestDuration.Observe
        ⟨(labels r.Method 200).code, "found", (labels r.Method 200).method, "/fast-random"⟩ _ = _
    rfl
  refine ⟨hs, hh, ?_, ?_⟩
  · rw [hs, summary_observations_Observe]
  · rw [hh, histogram_observations_Observe]

/-- Witness for C8: one `GET` to `/summary` on the initial state. -/
theorem summary_request_also_in_histogram_witness :
    (serve (fun _ => "") ⟨"GET", "", "/summary", []⟩
        exampleWorld).2.metrics.httpRequestSummaryDuration =
      exampleWorld.metrics.httpRequestSummaryDuration.Observe
        ⟨"200", "found", sanitizeMethod "GET", "/summary"⟩
        (Seconds ((serve (fun _ => "") ⟨"GET", "", "/summary", []⟩ exampleWorld).2.clock
          - exampleWorld.clock)) ∧
    (serve (fun _ => "") ⟨"GET", "", "/summary", []⟩ exampleWorld).2.metrics.httpRequestDuration =
      exampleWorld.metrics.httpRequestDuration.Observe
        ⟨"200", "found", sanitizeMethod "GET", "/fast-random"⟩
        (Seconds ((serve (fun _ => "") ⟨"GET", "", "/summary", []⟩ exampleWorld).2.clock
          - exampleWorld.clock)) ∧
    SummaryVec.observations
        (serve (fun _ => "") ⟨"GET", "", "/summary", []⟩
          exampleWorld).2.metrics.httpRequestSummaryDuration =
      SummaryVec.observations exampleWorld.metrics.httpRequestSummaryDuration + 1 ∧
    HistogramVec.observations
        (serve (fun _ => "") ⟨"GET", "", "/summary", []⟩ exampleWorld).2.metrics.httpRequestDuration =
      HistogramVec.observations exampleWorld.metrics.httpRequestDuration + 1 :=
  summary_request_also_in_histogram (fun _ => "") ⟨"GET", "", "/summary", []⟩ exampleWorld rfl

/-! ## What the instrumentation records per route -/

/-- Counterexample to C10 as stated: a `GET` request to `/error`, one of the
six instrumented paths, records no duration observation at all. -/
theorem error_request_records_no_duration :
    HistogramVec.observations
        (serve (fun _ => "") ⟨"GET", "", "/error", []⟩ exampleWorld).2.metrics.httpRequestDuration
      + SummaryVec.observations
        (serve (fun _ => "") ⟨"GET", "", "/error", []⟩
          exampleWorld).2.metrics.httpRequestSummaryDuration
      ≠ HistogramVec.observations exampleWorld.metrics.httpRequestDuration
        + SummaryVec.observations exampleWorld.metrics.httpRequestSummaryDuration + 1 := by
  decide

/-- C10, as amended. A request `r₁` to `/`, `/fast-random` or `/slow-random`
records exactly one duration observation, in the histogram, labelled with
the code of the status the handler wrote, the handler name `found`, the
sanitized (lower-case) request method and the path as endpoint; the value
is the time the clock advanced; the summary is unchanged; and the request
counter is incremented once under that code and method.  A request `r₂` to
`/error` or `/internal-error` records no duration observation and
increments the request counter once under the code of the status written
and the sanitized method. -/
theorem instrumentation_per_route (enc : Metrics → String) (r₁ r₂ : Request) (s : World)
    (h₁ : r₁.Path = "/" ∨ r₁.Path = "/fast-random" ∨ r₁.Path = "/slow-random")
    (h₂ : r₂.Path = "/error" ∨ r₂.Path = "/internal-error") :
    ((serve enc r₁ s).2.metrics.httpRequestDuration =
        s.metrics.httpRequestDuration.Observe
          ⟨sanitizeCode (serve enc r₁ s).1.finalStatus, "found", sanitizeMethod r₁.Method,
            r₁.Path⟩
          (Seconds ((serve enc r₁ s).2.clock - s.clock)) ∧
      HistogramVec.observations (serve enc r₁ s).2.metrics.httpRequestDuration =
        HistogramVec.observations s.metrics.httpRequestDuration + 1 ∧
      (serve enc r₁ s).2.metrics.httpRequestSummaryDuration =
        s.metrics.httpRequestSummaryDuration ∧
      (serve enc r₁ s).2.metrics.httpRequestsTotal =
        s.metrics.httpRequestsTotal.Inc
          ⟨sanitizeCode (serve enc r₁ s).1.finalStatus, sanitizeMethod r₁.Method⟩) ∧
    ((serve enc r₂ s).2.metrics.httpRequestDuration = s.metrics.httpRequestDuration ∧
      (serve enc r₂ s).2.metrics.httpRequestSummaryDuration =
        s.metrics.httpRequestSummaryDuration ∧
      (serve enc r₂ s).2.metrics.httpRequestsTotal =
        s.metrics.httpRequestsTotal.Inc
          ⟨sanitizeCode (serve enc r₂ s).1.finalStatus, sanitizeMethod r₂.Method⟩) := by
  constructor
  · have key : (serve enc r₁ s).2.metrics.httpRequestDuration =
          s.metrics.httpRequestDuration.Observe
            ⟨sanitizeCode (serve enc r₁ s).1.finalStatus, "found", sanitizeMethod r₁.Method,
              r₁.Path⟩
            (Seconds ((serve enc r₁ s).2.clock - s.clock)) ∧
        (serve enc r₁ s).2.metrics.httpRequestSummaryDuration =
          s.metrics.httpRequestSummaryDuration ∧
        (serve enc r₁ s).2.metrics.httpRequestsTotal =
          s.metrics.httpRequestsTotal.Inc
            ⟨sanitizeCode (serve enc r₁ s).1.finalStatus, sanitizeMethod r₁.Method⟩ := by
      rcases h₁ with h | h | h
      · rw [serve_root enc r₁ s h, h]
        exact ⟨rfl, rfl, rfl⟩
      · rw [serve_fastRandom enc r₁ s h, h]
        exact ⟨rfl, rfl, rfl⟩
      · rw [serve_slowRandom enc r₁ s h, h]
        exact ⟨rfl, rfl, rfl⟩
    refine ⟨key.1, ?_, key.2.1, key.2.2⟩
    rw [key.1, histogram_observations_Observe]
  · rcases h₂ with h | h
    · rw [serve_error enc r₂ s h]
      exact ⟨rfl, rfl, rfl⟩
    · rw [serve_internalError enc r₂ s h]
      exact ⟨rfl, rfl, rfl⟩

/-- Witness for C10 as amended: a `POST` to `/slow-random` and a `HEAD` to
`/internal-error`. -/
theorem instrumentation_per_route_witness :
    ((serve (fun _ => "") ⟨"POST", "", "/slow-random", []⟩
          exampleWorld).2.metrics.httpRequestDuration =
        exampleWorld.metrics.httpRequestDuration.Observe
          ⟨sanitizeCode
              (serve (fun _ => "") ⟨"POST", "", "/slow-random", []⟩ exampleWorld).1.finalStatus,
            "found", sanitizeMethod "POST", "/slow-random"⟩
          (Seconds ((serve (fun _ => "") ⟨"POST", "", "/slow-random", []⟩ exampleWorld).2.clock
            - exampleWorld.clock)) ∧
      HistogramVec.observations
          (serve (fun _ => "") ⟨"POST", "", "/slow-random", []⟩
            exampleWorld).2.metrics.httpRequestDuration =
        HistogramVec.observations exampleWorld.metrics.httpRequestDuration + 1 ∧
      (serve (fun _ => "") ⟨"POST", "", "/slow-random", []⟩
          exampleWorld).2.metrics.httpRequestSummaryDuration =
        exampleWorld.metrics.httpRequestSummaryDuration ∧
      (serve (fun _ => "") ⟨"POST", "", "/slow-random", []⟩
          exampleWorld).2.metrics.httpRequestsTotal =
        exampleWorld.metrics.httpRequestsTotal.Inc
          ⟨sanitizeCode
              (serve (fun _ => "") ⟨"POST", "", "/slow-random", []⟩ exampleWorld).1.finalStatus,
            sanitizeMethod "POST"⟩) ∧
    ((serve (fun _ => "") ⟨"HEAD", "", "/internal-error", []⟩
          exampleWorld).2.metrics.httpRequestDuration =
        exampleWorld.metrics.httpRequestDuration ∧
      (serve (fun _ => "") ⟨"HEAD", "", "/internal-error", []⟩
          exampleWorld).2.metrics.httpRequestSummaryDuration =
        exampleWorld.metrics.httpRequestSummaryDuration ∧
      (serve (fun _ => "") ⟨"HEAD", "", "/internal-error", []⟩
          exampleWorld).2.metrics.httpRequestsTotal =
        exampleWorld.metrics.httpRequestsTotal.Inc
          ⟨sanitizeCode
              (serve (fun _ => "") ⟨"HEAD", "", "/internal-error", []⟩
                exampleWorld).1.finalStatus,
            sanitizeMethod "HEAD"⟩) :=
  instrumentation_per_route (fun _ => "") ⟨"POST", "", "/slow-random", []⟩
    ⟨"HEAD", "", "/internal-error", []⟩ exampleWorld (Or.inr (Or.inr rfl)) (Or.inr rfl)

/-! ## Histogram exposition -/

theorem writeBuckets_UpperBound (c : Nat) (ubs : List ℚ) (counts : List Nat) :
    (writeBuckets c ubs counts).map Bucket.UpperBound = ubs := by
  induction ubs generalizing c counts with
  | nil => rfl
  | cons ub rest ih => simp [writeBuckets, ih]

theorem writeBuckets_lower (c : Nat) (ubs : List ℚ) (counts : List Nat) :
    ∀ n ∈ (writeBuckets c ubs counts).map Bucket.CumulativeCount, c ≤ n := by
  induction ubs generalizing c counts with
  | nil => simp [writeBuckets]
  | cons ub rest ih =>
    intro n hn
    simp only [writeBuckets, List.map_cons, List.mem_cons] at hn
    rcases hn with hn | hn
    · omega
    · have := ih _ _ n hn
      omega

theorem writeBuckets_cumulative (c : Nat) (ubs : List ℚ) (counts : List Nat) :
    List.Pairwise (fun a b => a ≤ b) ((writeBuckets c ubs counts).map Bucket.CumulativeCount) := by
  induction ubs generalizing c counts with
  | nil => simp [writeBuckets]
  | cons ub rest ih =>
    simp only [writeBuckets, List.map_cons, List.pairwise_cons]
    exact ⟨fun n hn => writeBuckets_lower _ _ _ n hn, ih _ _⟩

theorem HistogramVec.keys_Observe (l : DurationLabels) (v : ℚ) (vec : HistogramVec) :
    (HistogramVec.Observe l v vec).map Prod.fst =
      if l ∈ vec.map Prod.fst then vec.map Prod.fst else vec.map Prod.fst ++ [l] := by
  induction vec with
  | nil => simp [HistogramVec.Observe]
  | cons p rest ih =>
    obtain ⟨k, h⟩ := p
    by_cases hk : k = l
    · simp [HistogramVec.Observe, hk]
    · have hk' : ¬ l = k := fun e => hk e.symm
      simp only [HistogramVec.Observe, hk, if_false, List.map_cons, ih, List.mem_cons, hk',
        false_or]
      split <;> simp

theorem HistogramVec.upperBounds_Observe (l : DurationLabels) (v : ℚ) (vec : HistogramVec)
    (hv : ∀ p ∈ vec, p.2.upperBounds = Buckets) :
    ∀ p ∈ HistogramVec.Observe l v vec, p.2.upperBounds = Buckets := by
  induction vec with
  | nil =>
    intro p hp
    simp only [HistogramVec.Observe, List.mem_singleton] at hp
    rw [hp]
    rfl
  | cons q rest ih =>
    obtain ⟨k, h⟩ := q
    intro p hp
    by_cases hk : k = l
    · simp only [HistogramVec.Observe, hk, if_true, List.mem_cons] at hp
      rcases hp with hp | hp
      · rw [hp]
        exact hv (k, h) (List.mem_cons_self _ _)
      · exact hv p (List.mem_cons_of_mem _ hp)
    · simp only [HistogramVec.Observe, hk, if_false, List.mem_cons] at hp
      rcases hp with hp | hp
      · rw [hp]
        exact hv (k, h) (List.mem_cons_self _ _)
      · exact ih (fun q hq => hv q (List.mem_cons_of_mem _ hq)) p hp

theorem HistogramVec.WellFormed_Observe (l : DurationLabels) (v : ℚ) (vec : HistogramVec)
    (hv : vec.WellFormed) : (HistogramVec.Observe l v vec).WellFormed := by
  refine ⟨HistogramVec.upperBounds_Observe l v vec hv.1, ?_⟩
  rw [HistogramVec.keys_Observe]
  split
  · exact hv.2
  · rename_i hl
    rw [List.nodup_append]
    refine ⟨hv.2, List.nodup_singleton l, ?_⟩
    simpa [List.disjoint_singleton] using hl

/-- Each registered handler leaves the histogram vector alone or observes
once in it. -/
theorem Registered.histogram_step (enc : Metrics → String) (h : Registered)
    (w : ResponseWriter) (r : Request) (s : World) :
    (h.ServeHTTP enc w r s).2.metrics.httpRequestDuration = s.metrics.httpRequestDuration ∨
    ∃ l v, (h.ServeHTTP enc w r s).2.metrics.httpRequestDuration =
      s.metrics.httpRequestDuration.Observe l v := by
  cases h
  · exact Or.inr ⟨_, _, rfl⟩
  · exact Or.inr ⟨_, _, rfl⟩
  · exact Or.inr ⟨_, _, rfl⟩
  · exact Or.inr ⟨_, _, rfl⟩
  · exact Or.inl rfl
  · exact Or.inl rfl
  · exact Or.inl rfl

/-- One request leaves the histogram vector alone or observes once in it. -/
theorem serve_histogram_step (enc : Metrics → String) (r : Request) (s : World) :
    (serve enc r s).2.metrics.httpRequestDuration = s.metrics.httpRequestDuration ∨
    ∃ l v, (serve enc r s).2.metrics.httpRequestDuration =
      s.metrics.httpRequestDuration.Observe l v := by
  by_cases hstar : r.Path = "*"
  · have hs : serve enc r s =
        ((ResponseWriter.response r.Method false 0 "").WriteHeader StatusBadRequest, s) := by
      simp only [serve, ServeMux.ServeHTTP, hstar, if_true]
    rw [hs]
    exact Or.inl rfl
  · rw [serve_of_Handler enc r s (mux.Handler r) hstar rfl]
    cases mux.Handler r with
    | registered e => exact Registered.histogram_step enc e.h _ r s
    | RedirectHandler p => exact Or.inl rfl
    | NotFoundHandler => exact Or.inl rfl

theorem serveAll_WellFormed (enc : Metrics → String) (rs : List Request) (s : World)
    (hs : s.metrics.httpRequestDuration.WellFormed) :
    (serveAll enc rs s).metrics.httpRequestDuration.WellFormed := by
  induction rs generalizing s with
  | nil => exact hs
  | cons r rest ih =>
    have hfold : serveAll enc (r :: rest) s = serveAll enc rest (serve enc r s).2 := rfl
    rw [hfold]
    apply ih
    rcases serve_histogram_step enc r s with h | ⟨l, v, h⟩
    · rw [h]; exact hs
    · rw [h]; exact HistogramVec.WellFormed_Observe l v _ hs

/-- C9. After any sequence of requests served from the initial state, no
label combination occurs twice in `http_request_duration_seconds`, and the
buckets written for every label combination are one per configured
boundary, in order (the nine boundaries 0.05, 0.1, 0.2, 0.3, 0.4, 0.5,
0.75, 1, 2.5, which are strictly increasing), with cumulative counts that
never decrease as the boundary grows. -/
theorem histogram_one_bucket_per_boundary_cumulative (enc : Metrics → String)
    (rs : List Request) (clock : Nat) (randSrc : Nat → Nat) (randIdx : Nat) :
    Buckets = [0.05, 0.1, 0.2, 0.3, 0.4, 0.5, 0.75, 1, 2.5] ∧
    Buckets.length = 9 ∧
    List.Pairwise (fun a b => a < b) Buckets ∧
    (((serveAll enc rs ⟨initialMetrics, clock, randSrc, randIdx⟩).metrics.httpRequestDuration).map
      Prod.fst).Nodup ∧
    ∀ p ∈ (serveAll enc rs ⟨initialMetrics, clock, randSrc, randIdx⟩).metrics.httpRequestDuration,
      p.2.Write.map Bucket.UpperBound = Buckets ∧
      List.Pairwise (fun a b => a ≤ b) (p.2.Write.map Bucket.CumulativeCount) := by
  have hwf := serveAll_WellFormed enc rs ⟨initialMetrics, clock, randSrc, randIdx⟩
    ⟨by simp [initialMetrics], by simp [initialMetrics]⟩
  refine ⟨rfl, rfl, ?_, hwf.2, ?_⟩
  · simp only [Buckets, List.pairwise_cons, List.mem_cons, List.mem_singleton]
    norm_num
  · intro p hp
    refine ⟨?_, writeBuckets_cumulative _ _ _⟩
    rw [histogram.Write, writeBuckets_UpperBound]
    exact hwf.1 p hp

end MetricsDemo
